import Mathlib

/-!
Verification of the CSG composition engine of the OpenNeoMC repository
(smr/surfaces.py, smr/pins.py, smr/assemblies.py, smr/reflector.py,
smr/core.py) and of the optimization drivers (model-build-core-fresh.py,
pin_cell_test.py, assembly_final.py), as a shallow embedding in Lean 4.

Conventions of the embedding:
* Python floats are embedded as rationals (all geometric constants in the
  source are exact decimals).
* Python `zip`/`enumerate` loops over lists are embedded as maps over
  `List.range (min ...)` with `List.getD` indexing, which computes the
  same sequence of iterations.
* Python exceptions (IndexError from indexing an empty sequence, OpenMC
  run failures) are embedded as `Option`/`Except` results.
* Fills (materials / nested universes) are opaque to the composers, as in
  the duck-typed source; the cell/universe layer is therefore parametrized
  by the fill type `F`.  Material leaves are identified by their catalog
  name (`Mat := String`).
* Boundary-condition tags on surfaces are not modelled; no verified claim
  concerns them.
-/

namespace OpenNeoMC

/-- A geometric primitive surface (smr/surfaces.py builds ZPlane, ZCylinder,
XPlane, YPlane and general Plane primitives). -/
inductive Surface : Type where
  | zplane (z0 : ℚ)
  | zcyl (x0 y0 r : ℚ)
  | xplane (x0 : ℚ)
  | yplane (y0 : ℚ)
  | plane (a b c d : ℚ)
  deriving DecidableEq, Repr, Inhabited

/-- A boolean region over surface half-spaces (`+s`, `-s`, `&`, `|`, `~`). -/
inductive Region : Type where
  | pos (s : Surface)
  | neg (s : Surface)
  | inter (a b : Region)
  | union (a b : Region)
  | compl (a : Region)
  deriving DecidableEq, Repr, Inhabited

/-- A point of 3-space. -/
structure Point where
  x : ℚ
  y : ℚ
  z : ℚ
  deriving DecidableEq, Repr

/-- Modelled from the spec: the upstream library's `Surface.evaluate`, the
signed value whose sign selects the half-space (§4.1 of the spec; the
library itself is outside src/). -/
def Surface.eval : Surface → Point → ℚ
  | .zplane z0, p => p.z - z0
  | .zcyl x0 y0 r, p => (p.x - x0) ^ 2 + (p.y - y0) ^ 2 - r ^ 2
  | .xplane x0, p => p.x - x0
  | .yplane y0, p => p.y - y0
  | .plane a b c d, p => a * p.x + b * p.y + c * p.z - d

/-- Modelled from the spec: half-space membership with a consistent
tie-break (§9 of the spec requires a consistent side; the upstream
library's `Halfspace.__contains__` assigns the zero-measure boundary to
the positive side: `val >= 0` for `+`, `val < 0` for `-`). -/
def Region.containsP : Region → Point → Bool
  | .pos s, p => decide (0 ≤ s.eval p)
  | .neg s, p => decide (s.eval p < 0)
  | .inter a b, p => a.containsP p && b.containsP p
  | .union a b, p => a.containsP p || b.containsP p
  | .compl a, p => !(a.containsP p)

/-- A material is an opaque leaf, identified by its catalog name. -/
abbrev Mat := String

/-- A cell: a named piece of space with one fill, an optional region and an
optional rigid-body rotation (openmc.Cell as used by this repository). -/
structure Cell (F : Type) where
  name : String
  fill : F
  region : Option Region := none
  rotation : Option (ℤ × ℤ × ℤ) := none
  deriving DecidableEq, Repr

instance {F : Type} [Inhabited F] : Inhabited (Cell F) :=
  ⟨{ name := default, fill := default }⟩

/-- A universe: a named, ordered list of cells. -/
structure Universe (F : Type) where
  name : String
  cells : List (Cell F)
  deriving DecidableEq, Repr

/-! ## Geometric constants (smr/surfaces.py) -/

def INCHES : ℚ := 254 / 100

def rod_grid_side : ℚ := 124416 / 100000

def pin_pitch : ℚ := (496 / 1000) * INCHES

def lattice_pitch : ℚ := (8466 / 1000) * INCHES

/-- Modelled from the spec: the upstream helper `openmc.rectangular_prism`
(an axis-aligned rectangular prism expressed as four half-spaces, §2 item 1
of the spec; the helper itself is outside src/). -/
def rectangular_prism (width height : ℚ) : Region :=
  .inter
    (.inter (.pos (.xplane (-(width / 2)))) (.neg (.xplane (width / 2))))
    (.inter (.pos (.yplane (-(height / 2)))) (.neg (.yplane (height / 2))))

/-- surfs['rod grid box'] (surfaces.py line 175). -/
def rod_grid_box : Region := rectangular_prism rod_grid_side rod_grid_side

/-! ## Radial Pin Composer (pins.py, make_pin) -/

/-- The spacer material chosen by the `grid` branch of make_pin
(pins.py lines 62-65): Inconel for a bottom grid, Zircaloy otherwise. -/
def gridFill (grid : String) : Mat :=
  if grid = "bottom" then "In" else "Zr"

/-- pins.py lines 12-69.  `none` is returned exactly when an indexed access
(`surfaces[0]`, `materials[0]`) raises IndexError; no other validation is
performed by the source.  The middle loop
`zip(materials[1:-1], surfaces[:-1])` truncates to the shorter operand. -/
def make_pin (name : String) (surfaces : List Surface) (materials : List Mat)
    (grid : Option String := none) : Option (Universe Mat) :=
  match surfaces, materials with
  | [], _ => none
  | _ :: _, [] => none
  | s0 :: _, m0 :: _ =>
    let c0 : Cell Mat :=
      { name := name ++ " (0)", fill := m0, region := some (.neg s0) }
    let mid : List (Cell Mat) :=
      (List.range (min (materials.length - 2) (surfaces.length - 1))).map
        (fun i =>
          { name := name ++ " (" ++ toString (i + 1) ++ ")"
            fill := materials.getD (i + 1) default
            region := some (.inter (.pos (surfaces.getD i default))
                                   (.neg (surfaces.getD (i + 1) default))) })
    let clast : Cell Mat :=
      { name := name ++ " (last)", fill := materials.getLastD default
        region := some (.pos (surfaces.getLastD default)) }
    match grid with
    | none => some ⟨name, c0 :: mid ++ [clast]⟩
    | some g =>
      let clast' : Cell Mat :=
        { clast with
          region := some (.inter (.pos (surfaces.getLastD default))
                                 rod_grid_box) }
      let cgrid : Cell Mat :=
        { name := name ++ " (grid)", fill := gridFill g
          region := some (.compl rod_grid_box) }
      some ⟨name, c0 :: mid ++ [clast', cgrid]⟩

/-! ## Ordered-Interval Subdivider and Stack Composer (pins.py) -/

/-- Modelled from the spec: the upstream helper `openmc.model.subdivide`
(§4.3 of the spec, the Ordered-Interval Subdivider; the helper itself is
outside src/): for k ordering surfaces it returns the k+1 regions
below-first, between-consecutive-pairs, above-last; indexing an empty
sequence raises (`none`). -/
def subdivide (surfaces : List Surface) : Option (List Region) :=
  match surfaces with
  | [] => none
  | s0 :: _ =>
    some (.neg s0 ::
      ((List.range (surfaces.length - 1)).map
        (fun i => .inter (.pos (surfaces.getD i default))
                         (.neg (surfaces.getD (i + 1) default))) ++
       [.pos (surfaces.getLastD default)]))

variable {F : Type} [Inhabited F]

/-- pins.py lines 72-100.  `zip(universes, subdivide(surfaces))` truncates
to the shorter operand; no length validation is performed. -/
def make_stack (name : String) (surfaces : List Surface)
    (universes : List F) : Option (Universe F) :=
  match subdivide surfaces with
  | none => none
  | some regions =>
    some ⟨name,
      (List.range (min universes.length regions.length)).map
        (fun i =>
          { name := name ++ " (" ++ toString i ++ ")"
            fill := universes.getD i default
            region := some (regions.getD i default) })⟩

/-- pins.py lines 103-141: the pin-stack-with-inner-boundary variant.  Each
axial-segment cell is intersected with the outside (+) of `boundary`; one
final cell covers the inside (-) of `boundary` with `fuel_fill`. -/
def make_pin_stack (name : String) (zsurfaces : List Surface)
    (universes : List F) (boundary : Surface) (fuel_fill : F) :
    Option (Universe F) :=
  match subdivide zsurfaces with
  | none => none
  | some regions =>
    some ⟨name,
      ((List.range (min universes.length regions.length)).map
        (fun i =>
          { name := name ++ " (o" ++ toString i ++ ")"
            fill := universes.getD i default
            region := some (.inter (regions.getD i default)
                                   (.pos boundary)) })) ++
      [{ name := name ++ " (i)", fill := fuel_fill
         region := some (.neg boundary) }]⟩

/-! ## Transformation Reuse (reflector.py, rotate_universe) -/

/-- reflector.py lines 197-200: wrap an existing universe (by reference) as
the fill of a single new cell carrying the rotation, inside a fresh
enclosing universe.  The source universe value is the fill itself; nothing
is rebuilt. -/
def rotate_universe (univ : F) (rotation : ℤ × ℤ × ℤ) (name : String) :
    Universe F :=
  ⟨name, [{ name := "reflector " ++ name, fill := univ
            rotation := some rotation }]⟩

/-- reflector.py lines 202-223: the (source key, rotation, new name) of
every rotation-reuse call made by reflector_universes, in source order. -/
def reflector_rotation_calls : List (String × (ℤ × ℤ × ℤ) × String) :=
  [("NW", (0, 0, -90), "NE"),
   ("NW", (0, 0, 90), "SW"),
   ("NW", (0, 0, 180), "SE"),
   ("2,0", (0, 180, -90), "0,2"),
   ("5,0", (0, 0, -90), "0,3"),
   ("4,0", (0, 0, -90), "0,4"),
   ("3,0", (0, 0, -90), "0,5"),
   ("2,0", (0, 0, -90), "0,6"),
   ("1,1", (0, 0, -90), "1,7"),
   ("2,0", (0, 180, 0), "2,8"),
   ("3,0", (0, 180, 0), "3,8"),
   ("4,0", (0, 180, 0), "4,8"),
   ("3,0", (0, 0, 180), "5,8"),
   ("2,0", (180, 0, 0), "6,0"),
   ("2,0", (0, 0, 180), "6,8"),
   ("1,1", (180, 0, 0), "7,1"),
   ("1,1", (0, 0, 180), "7,7"),
   ("2,0", (0, 0, 90), "8,2"),
   ("3,0", (0, 0, 90), "8,3"),
   ("4,0", (0, 0, 90), "8,4"),
   ("5,0", (0, 0, 90), "8,5"),
   ("2,0", (0, 0, 180), "8,6")]

/-! ## Assembly fill arrays (assemblies.py, assembly_universes) -/

/-- assemblies.py lines 162-163: row indices of the 25 non-fuel lattice
positions. -/
def nonfuel_y : List Nat :=
  [2, 2, 2, 3, 3, 5, 5, 5, 5, 5, 8, 8, 8, 8, 8,
   11, 11, 11, 11, 11, 13, 13, 14, 14, 14]

/-- assemblies.py lines 164-165: column indices of the 25 non-fuel lattice
positions. -/
def nonfuel_x : List Nat :=
  [5, 8, 11, 3, 13, 2, 5, 8, 11, 14, 2, 5, 8, 11, 14,
   2, 5, 8, 11, 14, 3, 13, 5, 8, 11]

/-- The (y, x) pairs addressed by `universes[nonfuel_y, nonfuel_x]`. -/
def nonfuel_pos : List (Nat × Nat) := nonfuel_y.zip nonfuel_x

/-- NumPy fancy-index assignment `arr[ys, xs] = vals` performs one write
per listed position, in order (with repeated indices the last write is the
one retained). -/
def writeSeq (arr : Nat × Nat → F) (ws : List ((Nat × Nat) × F)) :
    Nat × Nat → F :=
  ws.foldl (fun a w => fun p => if p = w.1 then w.2 else a p) arr

/-- assemblies.py, each variant block (e.g. lines 173-181): the 17x17 array
is first uniformly filled with the fuel-pin-stack universe
(`universes[:,:] = bulk`), then the 25 listed non-fuel positions are
overwritten (`universes[nonfuel_y, nonfuel_x] = vals`). -/
def assembly_fill_array (bulk : F) (vals : List F) : Nat × Nat → F :=
  writeSeq (fun _ => bulk) (nonfuel_pos.zip vals)

/-- The value list used by the no-BA and single-CR-bank variant blocks
(e.g. assemblies.py lines 175-181): the chosen center universe at position
index 12, the bank/guide-tube universe at the other 24 positions. -/
def variant_vals (tube cent : F) : List F :=
  List.replicate 12 tube ++ cent :: List.replicate 12 tube

/-! ## Fitness evaluation boundary (model-build-core-fresh.py,
pin_cell_test.py, assembly_final.py) -/

/-- Outcome of one external transport-solver run: either a k-effective
value with its standard deviation, or a failure (non-convergence, no
surviving particles, any raised error). -/
inductive SolverOutcome : Type where
  | ok (keff : ℚ) (stddev : ℚ)
  | failed (msg : String)
  deriving DecidableEq, Repr

/-- model-build-core-fresh.py lines 69-89: the SMR fitness function.  The
body wraps no handler around the solver call, so a failure propagates out
of FIT (embedded as `Except.error`); on success the fitness is
`abs(k_combined_nom - 1.0)`. -/
def FIT_smr (outcome : SolverOutcome) : Except String ℚ :=
  match outcome with
  | .ok k _ => .ok |k - 1|
  | .failed msg => .error msg

/-- pin_cell_test.py lines 102-124: the pin-cell fitness function.  Again
no handler; on success the fitness is `abs(k_combined_nom - 1.10)`. -/
def FIT_pin_cell (outcome : SolverOutcome) : Except String ℚ :=
  match outcome with
  | .ok k _ => .ok |k - 11/10|
  | .failed msg => .error msg

/-- Round-half-even on rationals (the rounding rule of `np.round`). -/
def roundHalfEven (x : ℚ) : ℤ :=
  if x - ⌊x⌋ < 1/2 then ⌊x⌋
  else if 1/2 < x - ⌊x⌋ then ⌊x⌋ + 1
  else if 2 ∣ ⌊x⌋ then ⌊x⌋ else ⌊x⌋ + 1

/-- `np.round(v, 5)`. -/
def np_round5 (q : ℚ) : ℚ := (roundHalfEven (q * 100000) : ℚ) / 100000

/-- assembly_final.py lines 122-155: the assembly fitness function.  This
one does wrap the solver call in try/except and returns the sentinel 0.0
on failure; on success it returns the (possibly fuel-limit-penalized)
k-effective rounded to 5 decimals. -/
def FIT_assembly (used_fuel : Nat) (outcome : SolverOutcome) :
    Except String ℚ :=
  match outcome with
  | .failed _ => .ok 0
  | .ok k _ =>
    .ok (np_round5 (if 61 < used_fuel then k + (-100000) else k))

/-- The process-level filesystem state visible to FIT: the current working
directory and the set (list) of existing scratch directories. -/
structure FsState where
  cwd : String
  dirs : List String
  deriving DecidableEq, Repr

/-- The per-evaluation scratch path `os.path.join(curpath,
'subfold_'+str(randnum))`. -/
def subfold_path (curpath : String) (randnum : Nat) : String :=
  curpath ++ "/subfold_" ++ toString randnum

/-- Filesystem effect of one successful FIT call (model-build-core-fresh.py
lines 72-88 and pin_cell_test.py lines 106-123 perform the same sequence):
`os.makedirs(pathname)`; `os.chdir(pathname)`; run the solver;
`shutil.rmtree(pathname)`; return.  No step restores the previous working
directory. -/
def FIT_fs (curpath : String) (randnum : Nat) (s : FsState) : FsState :=
  let pathname := subfold_path curpath randnum
  let s1 : FsState := { s with dirs := s.dirs ++ [pathname] }
  let s2 : FsState := { s1 with cwd := pathname }
  { s2 with dirs := s2.dirs.filter (fun d => d ≠ pathname) }

/-! ## The module-global surfaces registry (smr/surfaces.py) -/

def pellet_OR : ℚ := 0.3195 * INCHES / 2
def clad_IR : ℚ := 0.326 * INCHES / 2
def clad_OR : ℚ := 0.374 * INCHES / 2
def active_fuel_length : ℚ := 78.74 * INCHES
def plenum_length : ℚ := 5.311 * INCHES
def fuel_rod_length : ℚ := 85.00 * INCHES
def lower_end_cap_length : ℚ := 0.575 * INCHES
def guide_tube_IR : ℚ := 0.450 * INCHES / 2
def guide_tube_OR : ℚ := 0.482 * INCHES / 2
def guide_tube_dash_IR : ℚ := 0.397 * INCHES / 2
def guide_tube_dash_OR : ℚ := guide_tube_OR
def boron_carbide_OR : ℚ := 0.333 * INCHES / 2
def control_rod_IR : ℚ := 0.344 * INCHES / 2
def control_rod_OR : ℚ := 0.381 * INCHES / 2
def burn_abs_r1 : ℚ := 0.21400
def burn_abs_r2 : ℚ := 0.23051
def burn_abs_r3 : ℚ := 0.24130
def burn_abs_r4 : ℚ := 0.42672
def burn_abs_r5 : ℚ := 0.43688
def burn_abs_r6 : ℚ := 0.48387
def burn_abs_r7 : ℚ := 0.56134
def burn_abs_r8 : ℚ := 0.60198
def plenum_spring_OR : ℚ := 0.06459
def spacer_height : ℚ := 1.750 * INCHES
def grid_strap_side : ℚ := 21.47270
def core_barrel_IR : ℚ := 74 * INCHES / 2
def core_barrel_OR : ℚ := 78 * INCHES / 2
def neutron_shield_OR : ℚ := core_barrel_OR + 2.0
def rpv_IR : ℚ := 96.5 * INCHES / 2
def rpv_OR : ℚ := 105 * INCHES / 2

def reference_z : ℚ := 0.0
def lowest_extent : ℚ := reference_z
def bottom_support_plate : ℚ := lowest_extent + 20.000
def top_support_plate : ℚ := bottom_support_plate + 5.000
def bottom_lower_nozzle : ℚ := bottom_support_plate + 5.000
def top_lower_nozzle : ℚ := bottom_lower_nozzle + 4.0 * INCHES
def bottom_fuel_rod : ℚ := bottom_lower_nozzle + 4.0 * INCHES
def top_lower_thimble : ℚ := bottom_fuel_rod + lower_end_cap_length
def bottom_fuel_stack : ℚ := bottom_fuel_rod + lower_end_cap_length
def bot_burn_abs : ℚ := bottom_fuel_stack + 2.0 * INCHES
def top_active_core : ℚ := bottom_fuel_stack + active_fuel_length
def top_plenum : ℚ := top_active_core + plenum_length
def top_fuel_rod : ℚ := bottom_fuel_rod + fuel_rod_length
def bottom_upper_nozzle : ℚ := top_fuel_rod + (423.049 - 419.704)
def top_upper_nozzle : ℚ := bottom_upper_nozzle + (431.876 - 423.049)
def highest_extent : ℚ := top_upper_nozzle + 20.0

def first_grid_bot : ℚ := bottom_fuel_rod + 6.0
def last_grid_top : ℚ := top_fuel_rod - 2.0
def last_grid_bot : ℚ := last_grid_top - spacer_height

/-- `np.linspace(first_grid_bot, last_grid_bot, 5)`, element i. -/
def grid_bottom (i : Nat) : ℚ :=
  first_grid_bot + i * (last_grid_bot - first_grid_bot) / 4

def grid_top (i : Nat) : ℚ := grid_bottom i + spacer_height

def step0H : ℚ := 46.079
def step248H : ℚ := 269.122
def step_width : ℚ := 1.58173

/-- A registry entry: surfaces.py stores both primitive surfaces and
composite prism regions in the same dictionary. -/
inductive Entry : Type where
  | surf (s : Surface)
  | region (r : Region)
  deriving DecidableEq, Repr

/-- The registry: a string-keyed mapping, as the module-global `surfs`
dictionary of surfaces.py. -/
def Surfs : Type := String → Option Entry

/-- Dictionary assignment `surfs[k] = v`. -/
def Surfs.set (m : Surfs) (k : String) (v : Entry) : Surfs :=
  fun q => if q = k then some v else m q

/-- The entries placed in the module-global `surfs` dictionary when
smr/surfaces.py is imported (lines 129-285), in source order.  The four
neutron-shield planes have irrational slope coefficients (`tan(pi/3)` and
friends), so the registry is parametrized by those four values; no claim
inspects them.  `.clone()` copies carry the same geometric value. -/
def initial_surfs_list (ns1 ns2 ns3 ns4 : ℚ) : List (String × Entry) :=
  [("pellet OR", .surf (.zcyl 0 0 pellet_OR)),
   ("plenum spring OR", .surf (.zcyl 0 0 plenum_spring_OR)),
   ("clad IR", .surf (.zcyl 0 0 clad_IR)),
   ("clad OR", .surf (.zcyl 0 0 clad_OR)),
   ("GT IR", .surf (.zcyl 0 0 guide_tube_IR)),
   ("GT OR", .surf (.zcyl 0 0 guide_tube_OR)),
   ("GT dashpot IR", .surf (.zcyl 0 0 guide_tube_dash_IR)),
   ("GT dashpot OR", .surf (.zcyl 0 0 guide_tube_dash_OR)),
   ("CP OR", .surf (.zcyl 0 0 boron_carbide_OR)),
   ("CR IR", .surf (.zcyl 0 0 control_rod_IR)),
   ("CR OR", .surf (.zcyl 0 0 control_rod_OR)),
   ("BA IR 1", .surf (.zcyl 0 0 burn_abs_r1)),
   ("BA IR 2", .surf (.zcyl 0 0 burn_abs_r2)),
   ("BA IR 3", .surf (.zcyl 0 0 burn_abs_r3)),
   ("BA IR 4", .surf (.zcyl 0 0 burn_abs_r4)),
   ("BA IR 5", .surf (.zcyl 0 0 burn_abs_r5)),
   ("BA IR 6", .surf (.zcyl 0 0 burn_abs_r6)),
   ("BA IR 7", .surf (.zcyl 0 0 burn_abs_r7)),
   ("BA IR 8", .surf (.zcyl 0 0 burn_abs_r8)),
   ("IT IR", .surf (.zcyl 0 0 burn_abs_r5)),
   ("IT OR", .surf (.zcyl 0 0 burn_abs_r6)),
   ("rod grid box", .region rod_grid_box),
   ("lat grid box inner",
     .region (rectangular_prism (17 * pin_pitch) (17 * pin_pitch))),
   ("lat grid box outer",
     .region (rectangular_prism grid_strap_side grid_strap_side)),
   ("bot support plate", .surf (.zplane bottom_support_plate)),
   ("top support plate", .surf (.zplane top_support_plate)),
   ("bottom FR", .surf (.zplane bottom_fuel_rod)),
   ("top lower nozzle", .surf (.zplane bottom_fuel_rod)),
   ("bot lower nozzle", .surf (.zplane top_support_plate)),
   ("bot active core", .surf (.zplane bottom_fuel_stack)),
   ("top active core", .surf (.zplane top_active_core)),
   ("top lower thimble", .surf (.zplane bottom_fuel_stack)),
   ("BA bot", .surf (.zplane bot_burn_abs)),
   ("grid1bot", .surf (.zplane (grid_bottom 0))),
   ("grid1top", .surf (.zplane (grid_top 0))),
   ("grid2bot", .surf (.zplane (grid_bottom 1))),
   ("grid2top", .surf (.zplane (grid_top 1))),
   ("grid3bot", .surf (.zplane (grid_bottom 2))),
   ("grid3top", .surf (.zplane (grid_top 2))),
   ("grid4bot", .surf (.zplane (grid_bottom 3))),
   ("grid4top", .surf (.zplane (grid_top 3))),
   ("grid5bot", .surf (.zplane (grid_bottom 4))),
   ("grid5top", .surf (.zplane (grid_top 4))),
   ("dashpot top", .surf (.zplane step0H)),
   ("top pin plenum", .surf (.zplane top_plenum)),
   ("top FR", .surf (.zplane top_fuel_rod)),
   ("bot upper nozzle", .surf (.zplane bottom_upper_nozzle)),
   ("top upper nozzle", .surf (.zplane top_upper_nozzle)),
   ("bankSA top", .surf (.zplane (step248H + step_width * 228))),
   ("bankSA bot", .surf (.zplane step248H)),
   ("bankSB top", .surf (.zplane (step248H + step_width * 228))),
   ("bankSB bot", .surf (.zplane step248H)),
   ("bankSC top", .surf (.zplane (step248H + step_width * 228))),
   ("bankSC bot", .surf (.zplane step248H)),
   ("bankSD top", .surf (.zplane (step248H + step_width * 228))),
   ("bankSD bot", .surf (.zplane step248H)),
   ("bankSE top", .surf (.zplane (step248H + step_width * 228))),
   ("bankSE bot", .surf (.zplane step248H)),
   ("core barrel IR", .surf (.zcyl 0 0 core_barrel_IR)),
   ("core barrel OR", .surf (.zcyl 0 0 core_barrel_OR)),
   ("neutron shield OR", .surf (.zcyl 0 0 neutron_shield_OR)),
   ("neutron shield NWbot SEtop", .surf (.plane 1 ns1 0 0)),
   ("neutron shield NWtop SEbot", .surf (.plane 1 ns2 0 0)),
   ("neutron shield NEbot SWtop", .surf (.plane 1 ns3 0 0)),
   ("neutron shield NEtop SWbot", .surf (.plane 1 ns4 0 0)),
   ("RPV IR", .surf (.zcyl 0 0 rpv_IR)),
   ("RPV OR", .surf (.zcyl 0 0 rpv_OR)),
   ("upper bound", .surf (.zplane highest_extent)),
   ("lower bound", .surf (.zplane lowest_extent))]

/-- The registry as imported (all keys above are distinct, so association
lookup agrees with the sequence of dictionary assignments). -/
def initial_surfs (ns1 ns2 ns3 ns4 : ℚ) : Surfs :=
  fun k => (initial_surfs_list ns1 ns2 ns3 ns4).lookup k

/-- One candidate parameter vector: the four control-rod bank insertion
depths CRs[0..3] (banks A, B, C, D). -/
structure CRBanks where
  a : ℚ
  b : ℚ
  c : ℚ
  d : ℚ
  deriving DecidableEq, Repr

def bank_top_z : ℚ := 786.348
def bank_bot_z : ℚ := 405.713

/-- pins.py lines 164-187: every call of pin_universes begins by writing
the eight control-rod bank planes into the module-global surfs dictionary
(source order: bank D, C, B, A), displaced by the CRs argument. -/
def pin_universes_surfs (CRs : CRBanks) (s : Surfs) : Surfs :=
  let s := s.set "bankD top" (.surf (.zplane (bank_top_z - CRs.d)))
  let s := s.set "bankD bot" (.surf (.zplane (bank_bot_z - CRs.d)))
  let s := s.set "bankC top" (.surf (.zplane (bank_top_z - CRs.c)))
  let s := s.set "bankC bot" (.surf (.zplane (bank_bot_z - CRs.c)))
  let s := s.set "bankB top" (.surf (.zplane (bank_top_z - CRs.b)))
  let s := s.set "bankB bot" (.surf (.zplane (bank_bot_z - CRs.b)))
  let s := s.set "bankA top" (.surf (.zplane (bank_top_z - CRs.a)))
  let s := s.set "bankA bot" (.surf (.zplane (bank_bot_z - CRs.a)))
  s

/-- The eight registry keys written by pin_universes. -/
def bank_keys : List String :=
  ["bankD top", "bankD bot", "bankC top", "bankC bot",
   "bankB top", "bankB bot", "bankA top", "bankA bot"]

/-! ## Helper lemmas -/

theorem getD_range_map {α : Type} (f : ℕ → α) (n i : ℕ) (d : α)
    (h : i < n) : ((List.range n).map f).getD i d = f i := by
  rw [List.getD_eq_getElem?_getD, List.getElem?_map, List.getElem?_range h]
  rfl

theorem length_range_map {α : Type} (f : ℕ → α) (n : ℕ) :
    ((List.range n).map f).length = n := by
  rw [List.length_map, List.length_range]

/-! ## C1 -/

/-- C1: the claim that calling make_pin or make_stack with a fills
sequence whose length is not surfaces+1 always raises a fatal construction
error before any cell is built.  Refuted: with 2 surfaces and 2 materials
make_pin silently returns a universe, and with 2 surfaces and 1 universe
make_stack silently returns a universe (`zip` truncation); no validation
exists in pins.py. -/
theorem C1_counterexample :
    ((["fuel", "clad"] : List Mat).length ≠
       [Surface.zcyl 0 0 (3/4), Surface.zcyl 0 0 (17/20)].length + 1) ∧
    (make_pin "p" [Surface.zcyl 0 0 (3/4), Surface.zcyl 0 0 (17/20)]
       ["fuel", "clad"] none).isSome = true ∧
    ((["bottom"] : List Mat).length ≠
       [Surface.zplane 10, Surface.zplane 20].length + 1) ∧
    (make_stack "s" [Surface.zplane 10, Surface.zplane 20]
       (["bottom"] : List Mat)).isSome = true := by
  exact ⟨by decide, rfl, by decide, rfl⟩

/-- C1 amended: make_pin and make_stack perform no length validation at
all.  make_pin fails (IndexError on `surfaces[0]` / `materials[0]`)
exactly when the surfaces or the materials sequence is empty, and
make_stack fails exactly when the surfaces sequence is empty; every other
call, however mismatched the lengths, silently builds and returns a
universe. -/
theorem C1_amended (F : Type) (inst : Inhabited F) :
    (∀ (name : String) (surfaces : List Surface) (materials : List Mat)
       (grid : Option String),
       make_pin name surfaces materials grid = none ↔
         surfaces = [] ∨ materials = []) ∧
    (∀ (name : String) (surfaces : List Surface) (universes : List F),
       make_stack name surfaces universes = none ↔ surfaces = []) := by
  constructor
  · intro name surfaces materials grid
    cases surfaces with
    | nil => simp [make_pin]
    | cons s ss =>
      cases materials with
      | nil => simp [make_pin]
      | cons m ms =>
        cases grid with
        | none => simp [make_pin]
        | some g => simp [make_pin]
  · intro name surfaces universes
    cases surfaces with
    | nil => simp [make_stack, subdivide]
    | cons s ss => simp [make_stack, subdivide]

/-- Witness for C1 amended: at the empty surface list, make_pin and
make_stack do fail. -/
theorem C1_amended_witness :
    make_pin "w" [] ["fuel"] none = none ∧
    make_stack "w" [] (["fuel"] : List Mat) = none := by
  exact ⟨((C1_amended Mat ⟨""⟩).1 "w" [] ["fuel"] none).mpr (Or.inl rfl),
         ((C1_amended Mat ⟨""⟩).2 "w" [] ["fuel"]).mpr rfl⟩

theorem getLastD_eq_getD {α : Type} (l : List α) (d : α) :
    l.getLastD d = l.getD (l.length - 1) d := by
  rw [List.getLastD_eq_getLast?, List.getLast?_eq_getElem?,
      List.getD_eq_getElem?_getD]

theorem cells_length {α : Type} (c0 : α) (f : ℕ → α) (n : ℕ) (clast : α) :
    (c0 :: (List.range n).map f ++ [clast]).length = n + 2 := by
  simp [length_range_map]

theorem cells_getD_zero {α : Type} [Inhabited α] (c0 : α) (f : ℕ → α)
    (n : ℕ) (clast : α) :
    (c0 :: (List.range n).map f ++ [clast]).getD 0 default = c0 := rfl

theorem cells_getD_mid {α : Type} [Inhabited α] (c0 : α) (f : ℕ → α)
    (n : ℕ) (clast : α) (j : ℕ) (hj : j < n) :
    (c0 :: (List.range n).map f ++ [clast]).getD (j + 1) default = f j := by
  have h1 : (c0 :: (List.range n).map f ++ [clast]).getD (j + 1) default =
      ((List.range n).map f ++ [clast]).getD j default :=
    List.getD_cons_succ
  have hj' : j < ((List.range n).map f).length := by
    rw [length_range_map]; exact hj
  have h2 : ((List.range n).map f ++ [clast]).getD j default =
      ((List.range n).map f).getD j default :=
    List.getD_append _ _ _ _ hj'
  rw [h1, h2, getD_range_map _ _ _ _ hj]

theorem cells_getD_last {α : Type} [Inhabited α] (c0 : α) (f : ℕ → α)
    (n : ℕ) (clast : α) :
    (c0 :: (List.range n).map f ++ [clast]).getD (n + 1) default =
      clast := by
  have h1 : (c0 :: (List.range n).map f ++ [clast]).getD (n + 1) default =
      ((List.range n).map f ++ [clast]).getD n default :=
    List.getD_cons_succ
  have hn : ((List.range n).map f).length ≤ n := by
    rw [length_range_map]
  have h2 : ((List.range n).map f ++ [clast]).getD n default =
      [clast].getD (n - ((List.range n).map f).length) default :=
    List.getD_append_right _ _ _ _ hn
  rw [h1, h2, length_range_map, Nat.sub_self, List.getD_cons_zero]

/-- Normal form of a successful gridless make_pin call: once the length
contract holds, the truncating `min` of the middle-ring loop is the number
of rings. -/
theorem make_pin_none_normal (name : String) (s : Surface)
    (ss : List Surface) (m : Mat) (ms : List Mat)
    (hms : ms.length = ss.length + 1) :
    make_pin name (s :: ss) (m :: ms) none =
      some ⟨name,
        { name := name ++ " (0)", fill := m, region := some (.neg s) } ::
        (List.range ss.length).map (fun i =>
          { name := name ++ " (" ++ toString (i + 1) ++ ")"
            fill := (m :: ms).getD (i + 1) default
            region := some (.inter (.pos ((s :: ss).getD i default))
                                   (.neg ((s :: ss).getD (i + 1)
                                            default))) }) ++
        [{ name := name ++ " (last)", fill := (m :: ms).getLastD default
           region := some (.pos ((s :: ss).getLastD default)) }]⟩ := by
  have hmin : min ((m :: ms).length - 2) ((s :: ss).length - 1) =
      ss.length := by simp [hms]
  simp only [make_pin]
  rw [hmin]

/-! ## C2 -/

/-- C2: make_pin with k ascending cylinders, k+1 materials and no grid
returns a universe of exactly k+1 cells in order: innermost
`-surfaces[0]` filled with `materials[0]`, ring i =
`+surfaces[i-1] & -surfaces[i]` filled with `materials[i]`, outermost
`+surfaces[k-1]` filled with `materials[k]`. -/
theorem C2_make_pin (name : String) (surfaces : List Surface)
    (materials : List Mat) (hne : surfaces ≠ [])
    (hlen : materials.length = surfaces.length + 1) :
    ∃ cells : List (Cell Mat),
      make_pin name surfaces materials none = some ⟨name, cells⟩ ∧
      cells.length = surfaces.length + 1 ∧
      cells.getD 0 default =
        { name := name ++ " (0)", fill := materials.getD 0 default
          region := some (.neg (surfaces.getD 0 default)) } ∧
      (∀ i, 1 ≤ i → i ≤ surfaces.length - 1 →
        cells.getD i default =
          { name := name ++ " (" ++ toString i ++ ")"
            fill := materials.getD i default
            region := some (.inter (.pos (surfaces.getD (i - 1) default))
                                   (.neg (surfaces.getD i default))) }) ∧
      cells.getD surfaces.length default =
        { name := name ++ " (last)"
          fill := materials.getD surfaces.length default
          region := some (.pos (surfaces.getD (surfaces.length - 1)
                                  default)) } := by
  cases surfaces with
  | nil => exact absurd rfl hne
  | cons s ss =>
    cases materials with
    | nil => simp at hlen
    | cons m ms =>
      have hms : ms.length = ss.length + 1 := by simpa using hlen
      refine ⟨_, make_pin_none_normal name s ss m ms hms, ?_, ?_, ?_, ?_⟩
      · exact cells_length _ _ _ _
      · rw [cells_getD_zero]; rfl
      · intro i h1 h2
        cases i with
        | zero => omega
        | succ j =>
          have hj : j < ss.length := by
            simp only [List.length_cons] at h2
            omega
          rw [cells_getD_mid _ _ _ _ _ hj]
          simp
      · have hL : (s :: ss).length = ss.length + 1 := rfl
        rw [hL, cells_getD_last, getLastD_eq_getD, getLastD_eq_getD]
        simp [hms]

/-- Witness for C2: end-to-end scenario 1 of the spec, a pin from two
cylinders (radii 0.75, 0.85) and three fills. -/
theorem C2_witness :
    ∃ cells : List (Cell Mat),
      make_pin "Fuel pin" [Surface.zcyl 0 0 (3/4), Surface.zcyl 0 0 (17/20)]
        ["fuel", "clad", "mod"] none = some ⟨"Fuel pin", cells⟩ ∧
      cells.length = 3 ∧
      cells.getD 0 default =
        { name := "Fuel pin (0)", fill := "fuel"
          region := some (.neg (Surface.zcyl 0 0 (3/4))) } ∧
      (∀ i, 1 ≤ i → i ≤ 1 →
        cells.getD i default =
          { name := "Fuel pin (" ++ toString i ++ ")"
            fill := ["fuel", "clad", "mod"].getD i default
            region := some (.inter
              (.pos ([Surface.zcyl 0 0 (3/4),
                      Surface.zcyl 0 0 (17/20)].getD (i - 1) default))
              (.neg ([Surface.zcyl 0 0 (3/4),
                      Surface.zcyl 0 0 (17/20)].getD i default))) }) ∧
      cells.getD 2 default =
        { name := "Fuel pin (last)", fill := "mod"
          region := some (.pos (Surface.zcyl 0 0 (17/20))) } := by
  exact C2_make_pin "Fuel pin"
    [Surface.zcyl 0 0 (3/4), Surface.zcyl 0 0 (17/20)]
    ["fuel", "clad", "mod"] (by decide) (by decide)

/-! ## C3 -/

/-- Normal form of a successful make_pin call with a grid argument. -/
theorem make_pin_some_normal (name : String) (s : Surface)
    (ss : List Surface) (m : Mat) (ms : List Mat) (g : String)
    (hms : ms.length = ss.length + 1) :
    make_pin name (s :: ss) (m :: ms) (some g) =
      some ⟨name,
        { name := name ++ " (0)", fill := m, region := some (.neg s) } ::
        (List.range ss.length).map (fun i =>
          { name := name ++ " (" ++ toString (i + 1) ++ ")"
            fill := (m :: ms).getD (i + 1) default
            region := some (.inter (.pos ((s :: ss).getD i default))
                                   (.neg ((s :: ss).getD (i + 1)
                                            default))) }) ++
        [{ name := name ++ " (last)", fill := (m :: ms).getLastD default
           region := some (.inter (.pos ((s :: ss).getLastD default))
                                  rod_grid_box) },
         { name := name ++ " (grid)", fill := gridFill g
           region := some (.compl rod_grid_box) }]⟩ := by
  have hmin : min ((m :: ms).length - 2) ((s :: ss).length - 1) =
      ss.length := by simp [hms]
  simp only [make_pin]
  rw [hmin]

/-- C3: make_pin with a truthy grid argument returns the same universe as
without grid, except the outermost cell is additionally intersected with
the rod-grid-box region and one wrap-around spacer cell (region the
complement of the rod grid box, filled with Inconel for a bottom grid and
Zircaloy otherwise) is appended, giving k+2 cells; no other cell
changes. -/
theorem C3_make_pin_grid (name : String) (surfaces : List Surface)
    (materials : List Mat) (g : String) (hne : surfaces ≠ [])
    (hlen : materials.length = surfaces.length + 1) :
    ∃ (cells : List (Cell Mat)) (clast : Cell Mat),
      make_pin name surfaces materials none =
        some ⟨name, cells ++ [clast]⟩ ∧
      clast.region = some (.pos (surfaces.getLastD default)) ∧
      make_pin name surfaces materials (some g) =
        some ⟨name,
          cells ++
          [{ clast with
             region := some (.inter (.pos (surfaces.getLastD default))
                                    rod_grid_box) },
           { name := name ++ " (grid)", fill := gridFill g
             region := some (.compl rod_grid_box) }]⟩ ∧
      (cells ++ [clast]).length = surfaces.length + 1 ∧
      gridFill "bottom" = "In" ∧
      (g ≠ "bottom" → gridFill g = "Zr") := by
  cases surfaces with
  | nil => exact absurd rfl hne
  | cons s ss =>
    cases materials with
    | nil => simp at hlen
    | cons m ms =>
      have hms : ms.length = ss.length + 1 := by simpa using hlen
      refine ⟨_, _, make_pin_none_normal name s ss m ms hms, rfl, ?_, ?_,
              rfl, ?_⟩
      · exact make_pin_some_normal name s ss m ms g hms
      · exact cells_length _ _ _ _
      · intro hg
        simp [gridFill, hg]

/-- Witness for C3: the two-cylinder pin decorated with an intermediate
grid. -/
theorem C3_witness :
    ∃ (cells : List (Cell Mat)) (clast : Cell Mat),
      make_pin "GT" [Surface.zcyl 0 0 (3/4), Surface.zcyl 0 0 (17/20)]
        ["fuel", "clad", "mod"] none = some ⟨"GT", cells ++ [clast]⟩ ∧
      clast.region = some (.pos ([Surface.zcyl 0 0 (3/4),
        Surface.zcyl 0 0 (17/20)].getLastD default)) ∧
      make_pin "GT" [Surface.zcyl 0 0 (3/4), Surface.zcyl 0 0 (17/20)]
        ["fuel", "clad", "mod"] (some "intermediate") =
        some ⟨"GT",
          cells ++
          [{ clast with
             region := some (.inter (.pos ([Surface.zcyl 0 0 (3/4),
               Surface.zcyl 0 0 (17/20)].getLastD default)) rod_grid_box) },
           { name := "GT (grid)", fill := gridFill "intermediate"
             region := some (.compl rod_grid_box) }]⟩ ∧
      (cells ++ [clast]).length = 3 ∧
      gridFill "bottom" = "In" ∧
      ("intermediate" ≠ "bottom" → gridFill "intermediate" = "Zr") := by
  exact C3_make_pin_grid "GT"
    [Surface.zcyl 0 0 (3/4), Surface.zcyl 0 0 (17/20)]
    ["fuel", "clad", "mod"] "intermediate" (by decide) (by decide)

/-! ## C4: semantic helper lemmas -/

theorem containsP_neg_zplane (z0 : ℚ) (p : Point) :
    (Region.neg (.zplane z0)).containsP p = true ↔ p.z < z0 := by
  simp [Region.containsP, Surface.eval, sub_neg]

theorem containsP_pos_zplane (z0 : ℚ) (p : Point) :
    (Region.pos (.zplane z0)).containsP p = true ↔ z0 ≤ p.z := by
  simp [Region.containsP, Surface.eval, sub_nonneg]

theorem containsP_inter (a b : Region) (p : Point) :
    (Region.inter a b).containsP p = true ↔
      a.containsP p = true ∧ b.containsP p = true := by
  simp [Region.containsP]

theorem getD_map_zplane (zs : List ℚ) (j : ℕ) (hj : j < zs.length) :
    (zs.map Surface.zplane).getD j default = .zplane (zs.getD j 0) := by
  simp [List.getD_eq_getElem?_getD, List.getElem?_map,
        List.getElem?_eq_getElem hj]

/-- In a strictly ascending list, the j-th element is at most x exactly
when j is below the count of elements that are at most x. -/
theorem sorted_getD_le_iff (x : ℚ) :
    ∀ (zs : List ℚ), zs.Sorted (· < ·) → ∀ j, j < zs.length →
      (zs.getD j 0 ≤ x ↔ j < zs.countP (fun z => decide (z ≤ x))) := by
  intro zs
  induction zs with
  | nil => intro _ j hj; simp at hj
  | cons z rest ih =>
    intro hsort j hj
    have hz : ∀ y ∈ rest, z < y := (List.sorted_cons.mp hsort).1
    have hrest : rest.Sorted (· < ·) := (List.sorted_cons.mp hsort).2
    rw [List.countP_cons]
    by_cases hzx : z ≤ x
    · have hc : decide (z ≤ x) = true := by simpa using hzx
      rw [if_pos hc]
      cases j with
      | zero => simp [hzx]
      | succ j' =>
        have hj' : j' < rest.length := by simpa using hj
        rw [List.getD_cons_succ, ih hrest j' hj']
        omega
    · have hx : x < z := lt_of_not_le hzx
      have hcount : rest.countP (fun z => decide (z ≤ x)) = 0 := by
        rw [List.countP_eq_zero]
        intro y hy
        simp only [decide_eq_true_eq]
        exact not_le.mpr (lt_trans hx (hz y hy))
      have hc : ¬(decide (z ≤ x) = true) := by simpa using hzx
      rw [if_neg hc, hcount]
      cases j with
      | zero => simp [hzx]
      | succ j' =>
        have hj' : j' < rest.length := by simpa using hj
        rw [List.getD_cons_succ]
        constructor
        · intro hle
          exfalso
          have hmem : rest.getD j' 0 ∈ rest := by
            rw [List.getD_eq_getElem?_getD, List.getElem?_eq_getElem hj']
            simp only [Option.getD_some]
            exact List.getElem_mem hj'
          exact absurd hle (not_le.mpr (lt_trans hx (hz _ hmem)))
        · intro h; omega

/-- The region list produced by the subdivider on a nonempty list of
axial planes (normal form of `subdivide`, established below). -/
def zsubdiv (z : ℚ) (zrest : List ℚ) : List Region :=
  Region.neg (Surface.zplane z) ::
    (List.range zrest.length).map (fun i =>
      Region.inter
        (.pos (((z :: zrest).map Surface.zplane).getD i default))
        (.neg (((z :: zrest).map Surface.zplane).getD (i + 1) default))) ++
    [Region.pos (((z :: zrest).map Surface.zplane).getLastD default)]

theorem subdivide_normal (z : ℚ) (zrest : List ℚ) :
    subdivide ((z :: zrest).map Surface.zplane) =
      some (zsubdiv z zrest) := by
  simp only [subdivide, zsubdiv, List.map_cons, List.length_cons,
             List.length_map, Nat.add_sub_cancel]
  rfl

/-- Membership in the i-th subdivision region is exactly "the number of
ordering planes at or below the point is i": the regions are the
contiguous slabs delimited by the ascending planes, with each boundary
plane owned by the slab above it. -/
theorem zsubdiv_char (z : ℚ) (zrest : List ℚ)
    (hsort : (z :: zrest).Sorted (· < ·)) (i : ℕ)
    (hi : i ≤ (z :: zrest).length) (p : Point) :
    ((zsubdiv z zrest).getD i default).containsP p = true ↔
      (z :: zrest).countP (fun w => decide (w ≤ p.z)) = i := by
  cases i with
  | zero =>
    have e0 : (zsubdiv z zrest).getD 0 default =
        Region.neg (Surface.zplane z) := rfl
    rw [e0, containsP_neg_zplane]
    have h0 := sorted_getD_le_iff p.z (z :: zrest) hsort 0 (by simp)
    simp only [List.getD_cons_zero] at h0
    constructor
    · intro hp
      have hnc : ¬ (0 < (z :: zrest).countP (fun w => decide (w ≤ p.z))) :=
        fun hc => absurd (h0.mpr hc) (not_le.mpr hp)
      omega
    · intro hc
      refine not_le.mp (fun hle => ?_)
      have := h0.mp hle
      omega
  | succ j =>
    rcases Nat.lt_or_ge j zrest.length with hj | hj
    · have em : (zsubdiv z zrest).getD (j + 1) default =
          Region.inter
            (.pos (((z :: zrest).map Surface.zplane).getD j default))
            (.neg (((z :: zrest).map Surface.zplane).getD (j + 1)
                     default)) := by
        simp only [zsubdiv]
        exact cells_getD_mid _ _ _ _ _ hj
      rw [em, getD_map_zplane _ _ (by simp; omega),
          getD_map_zplane _ _ (by simp; omega),
          containsP_inter, containsP_pos_zplane, containsP_neg_zplane]
      have hA := sorted_getD_le_iff p.z (z :: zrest) hsort j
        (by simp; omega)
      have hB := sorted_getD_le_iff p.z (z :: zrest) hsort (j + 1)
        (by simp; omega)
      constructor
      · rintro ⟨h1, h2⟩
        have hlow := hA.mp h1
        have hhigh : ¬ (j + 1 < (z :: zrest).countP
            (fun w => decide (w ≤ p.z))) :=
          fun hc => absurd (hB.mpr hc) (not_le.mpr h2)
        omega
      · intro hc
        refine ⟨hA.mpr (by omega), not_le.mp (fun hle => ?_)⟩
        have := hB.mp hle
        omega
    · have hjeq : j = zrest.length := by
        simp only [List.length_cons] at hi
        omega
      subst hjeq
      have el : (zsubdiv z zrest).getD (zrest.length + 1) default =
          Region.pos (((z :: zrest).map Surface.zplane).getLastD
            default) := by
        simp only [zsubdiv]
        exact cells_getD_last _ _ _ _
      rw [el, getLastD_eq_getD]
      have hL : ((z :: zrest).map Surface.zplane).length - 1 =
          zrest.length := by simp
      rw [hL, getD_map_zplane _ _ (by simp), containsP_pos_zplane]
      have hA := sorted_getD_le_iff p.z (z :: zrest) hsort zrest.length
        (by simp)
      have hC : (z :: zrest).countP (fun w => decide (w ≤ p.z)) ≤
          (z :: zrest).length := List.countP_le_length _
      simp only [List.length_cons] at hC
      rw [hA]
      omega

/-- Normal form of a successful make_stack call on nonempty axial planes
with the length contract satisfied. -/
theorem make_stack_normal (F : Type) [Inhabited F] (name : String)
    (z : ℚ) (zrest : List ℚ) (us : List F)
    (hus : us.length = zrest.length + 2) :
    make_stack name ((z :: zrest).map Surface.zplane) us =
      some ⟨name, (List.range (zrest.length + 2)).map (fun i =>
        { name := name ++ " (" ++ toString i ++ ")"
          fill := us.getD i default
          region := some ((zsubdiv z zrest).getD i default) })⟩ := by
  have hrl : (zsubdiv z zrest).length = zrest.length + 2 := by
    simp only [zsubdiv]
    exact cells_length _ _ _ _
  simp only [make_stack, subdivide_normal, hrl, hus, Nat.min_self]

/-- C4: make_stack with k ascending axial planes and k+1 fills returns a
universe of exactly k+1 cells pairing fill i with the i-th subdivision
region; those k+1 regions are contiguous ordered slabs (membership in
region i holds exactly when i planes lie at or below the point), pairwise
non-overlapping, and cover all of space (every point lies in exactly one
region). -/
theorem C4_make_stack (F : Type) (inst : Inhabited F) (name : String)
    (zs : List ℚ) (us : List F) (hne : zs ≠ [])
    (hsort : zs.Sorted (· < ·)) (hlen : us.length = zs.length + 1) :
    ∃ (regions : List Region) (cells : List (Cell F)),
      subdivide (zs.map Surface.zplane) = some regions ∧
      regions.length = zs.length + 1 ∧
      make_stack name (zs.map Surface.zplane) us = some ⟨name, cells⟩ ∧
      cells.length = zs.length + 1 ∧
      (∀ i, i ≤ zs.length →
        cells.getD i default =
          { name := name ++ " (" ++ toString i ++ ")"
            fill := us.getD i default
            region := some (regions.getD i default) }) ∧
      (∀ i, i ≤ zs.length → ∀ p : Point,
        ((regions.getD i default).containsP p = true ↔
          zs.countP (fun w => decide (w ≤ p.z)) = i)) ∧
      (∀ p : Point, ∃! i, i ≤ zs.length ∧
        (regions.getD i default).containsP p = true) := by
  cases zs with
  | nil => exact absurd rfl hne
  | cons z zrest =>
    have hus : us.length = zrest.length + 2 := by simpa using hlen
    have hchar := zsubdiv_char z zrest hsort
    refine ⟨zsubdiv z zrest, _, subdivide_normal z zrest, ?_,
            make_stack_normal F name z zrest us hus, ?_, ?_, hchar, ?_⟩
    · simp only [zsubdiv]
      rw [cells_length]
      simp
    · rw [length_range_map]
      simp
    · intro i hi
      have hi' : i < zrest.length + 2 := by
        simp only [List.length_cons] at hi
        omega
      rw [getD_range_map _ _ _ _ hi']
    · intro p
      have hcle : (z :: zrest).countP (fun w => decide (w ≤ p.z)) ≤
          (z :: zrest).length := List.countP_le_length _
      refine ⟨(z :: zrest).countP (fun w => decide (w ≤ p.z)),
              ⟨hcle, (hchar _ hcle p).mpr rfl⟩, ?_⟩
      intro j hj
      exact ((hchar j hj.1 p).mp hj.2).symm

/-- Witness for C4: end-to-end scenario 3 of the spec, an axial stack from
planes z=10 and z=20 with three fills. -/
theorem C4_witness :
    ∃ (regions : List Region) (cells : List (Cell Mat)),
      subdivide ([(10 : ℚ), 20].map Surface.zplane) = some regions ∧
      regions.length = 3 ∧
      make_stack "stack" ([(10 : ℚ), 20].map Surface.zplane)
        ["bottom", "middle", "top"] = some ⟨"stack", cells⟩ ∧
      cells.length = 3 ∧
      (∀ i, i ≤ 2 →
        cells.getD i default =
          { name := "stack (" ++ toString i ++ ")"
            fill := ["bottom", "middle", "top"].getD i default
            region := some (regions.getD i default) }) ∧
      (∀ i, i ≤ 2 → ∀ p : Point,
        ((regions.getD i default).containsP p = true ↔
          [(10 : ℚ), 20].countP (fun w => decide (w ≤ p.z)) = i)) ∧
      (∀ p : Point, ∃! i, i ≤ 2 ∧
        (regions.getD i default).containsP p = true) := by
  exact C4_make_stack Mat ⟨""⟩ "stack" [10, 20] ["bottom", "middle", "top"]
    (by decide) (by decide) (by decide)

/-! ## C5 -/

theorem app_getD_front {α : Type} [Inhabited α] (f : ℕ → α) (n : ℕ)
    (t : α) (j : ℕ) (hj : j < n) :
    ((List.range n).map f ++ [t]).getD j default = f j := by
  have h2 : ((List.range n).map f ++ [t]).getD j default =
      ((List.range n).map f).getD j default :=
    List.getD_append _ _ _ _ (by rw [length_range_map]; exact hj)
  rw [h2, getD_range_map _ _ _ _ hj]

theorem app_getD_back {α : Type} [Inhabited α] (f : ℕ → α) (n : ℕ)
    (t : α) :
    ((List.range n).map f ++ [t]).getD n default = t := by
  have h2 : ((List.range n).map f ++ [t]).getD n default =
      [t].getD (n - ((List.range n).map f).length) default :=
    List.getD_append_right _ _ _ _ (by rw [length_range_map])
  rw [h2, length_range_map, Nat.sub_self, List.getD_cons_zero]

/-- The region list produced by the subdivider on any nonempty surface
list (normal form of `subdivide`). -/
def subdiv_regions (s : Surface) (ss : List Surface) : List Region :=
  Region.neg s ::
    (List.range ss.length).map (fun i =>
      Region.inter (.pos ((s :: ss).getD i default))
                   (.neg ((s :: ss).getD (i + 1) default))) ++
    [Region.pos ((s :: ss).getLastD default)]

theorem subdivide_cons (s : Surface) (ss : List Surface) :
    subdivide (s :: ss) = some (subdiv_regions s ss) := by
  simp only [subdivide, subdiv_regions, List.length_cons,
             Nat.add_sub_cancel]
  rfl

/-- Normal form of a successful make_pin_stack call. -/
theorem make_pin_stack_normal (F : Type) [Inhabited F] (name : String)
    (s : Surface) (ss : List Surface) (us : List F) (b : Surface)
    (ff : F) (hus : us.length = ss.length + 2) :
    make_pin_stack name (s :: ss) us b ff =
      some ⟨name, (List.range (ss.length + 2)).map (fun i =>
        { name := name ++ " (o" ++ toString i ++ ")"
          fill := us.getD i default
          region := some (.inter ((subdiv_regions s ss).getD i default)
                                 (.pos b)) }) ++
        [{ name := name ++ " (i)", fill := ff
           region := some (.neg b) }]⟩ := by
  have hrl : (subdiv_regions s ss).length = ss.length + 2 := by
    simp only [subdiv_regions]
    exact cells_length _ _ _ _
  simp only [make_pin_stack, subdivide_cons, hrl, hus, Nat.min_self]

/-- C5: make_pin_stack with k axial surfaces, k+1 universes, a boundary
surface b and an inner fill returns exactly k+2 cells: cell i (0 ≤ i ≤ k)
pairs universe i with the i-th axial subdivision region intersected with
+b, and one final cell has region -b with no axial restriction and the
inner fill. -/
theorem C5_make_pin_stack (F : Type) (inst : Inhabited F) (name : String)
    (zsurfaces : List Surface) (us : List F) (b : Surface) (ff : F)
    (hne : zsurfaces ≠ []) (hlen : us.length = zsurfaces.length + 1) :
    ∃ (regions : List Region) (cells : List (Cell F)),
      subdivide zsurfaces = some regions ∧
      regions.length = zsurfaces.length + 1 ∧
      make_pin_stack name zsurfaces us b ff = some ⟨name, cells⟩ ∧
      cells.length = zsurfaces.length + 2 ∧
      (∀ i, i ≤ zsurfaces.length →
        cells.getD i default =
          { name := name ++ " (o" ++ toString i ++ ")"
            fill := us.getD i default
            region := some (.inter (regions.getD i default)
                                   (.pos b)) }) ∧
      cells.getD (zsurfaces.length + 1) default =
        { name := name ++ " (i)", fill := ff
          region := some (.neg b) } := by
  cases zsurfaces with
  | nil => exact absurd rfl hne
  | cons s ss =>
    have hus : us.length = ss.length + 2 := by simpa using hlen
    refine ⟨subdiv_regions s ss, _, subdivide_cons s ss, ?_,
            make_pin_stack_normal F name s ss us b ff hus, ?_, ?_, ?_⟩
    · simp only [subdiv_regions]
      rw [cells_length]
      simp
    · rw [List.length_append, length_range_map]
      simp
    · intro i hi
      have hi' : i < ss.length + 2 := by
        simp only [List.length_cons] at hi
        omega
      rw [app_getD_front _ _ _ _ hi']
    · exact app_getD_back _ _ _

/-- Witness for C5: two axial planes, three outer universes, a pellet
boundary cylinder and an inner fuel fill. -/
theorem C5_witness :
    ∃ (regions : List Region) (cells : List (Cell Mat)),
      subdivide [Surface.zplane 10, Surface.zplane 20] = some regions ∧
      regions.length = 3 ∧
      make_pin_stack "FP" [Surface.zplane 10, Surface.zplane 20]
        ["o0", "o1", "o2"] (Surface.zcyl 0 0 (2/5)) "fuel" =
        some ⟨"FP", cells⟩ ∧
      cells.length = 4 ∧
      (∀ i, i ≤ 2 →
        cells.getD i default =
          { name := "FP (o" ++ toString i ++ ")"
            fill := ["o0", "o1", "o2"].getD i default
            region := some (.inter (regions.getD i default)
                                   (.pos (Surface.zcyl 0 0 (2/5)))) }) ∧
      cells.getD 3 default =
        { name := "FP (i)", fill := "fuel"
          region := some (.neg (Surface.zcyl 0 0 (2/5))) } := by
  exact C5_make_pin_stack Mat ⟨""⟩ "FP"
    [Surface.zplane 10, Surface.zplane 20] ["o0", "o1", "o2"]
    (Surface.zcyl 0 0 (2/5)) "fuel" (by decide) (by decide)

/-! ## C6 -/

theorem writeSeq_cons {F : Type} (arr : Nat × Nat → F)
    (w : (Nat × Nat) × F) (l : List ((Nat × Nat) × F)) :
    writeSeq arr (w :: l) =
      writeSeq (fun q => if q = w.1 then w.2 else arr q) l := rfl

theorem writeSeq_append {F : Type} (arr : Nat × Nat → F)
    (l1 l2 : List ((Nat × Nat) × F)) :
    writeSeq arr (l1 ++ l2) = writeSeq (writeSeq arr l1) l2 := by
  simp [writeSeq, List.foldl_append]

theorem writeSeq_not_mem {F : Type} (arr : Nat × Nat → F)
    (ws : List ((Nat × Nat) × F)) (p : Nat × Nat)
    (h : ∀ w ∈ ws, w.1 ≠ p) : writeSeq arr ws p = arr p := by
  induction ws generalizing arr with
  | nil => rfl
  | cons w rest ih =>
    rw [writeSeq_cons, ih _ (fun v hv => h v (List.mem_cons_of_mem _ hv))]
    exact if_neg (fun hh => h w (List.mem_cons_self _ _) hh.symm)

theorem writeSeq_last_wins {F : Type} (arr : Nat × Nat → F)
    (ws₁ ws₂ : List ((Nat × Nat) × F)) (p : Nat × Nat) (v : F)
    (h : ∀ w ∈ ws₂, w.1 ≠ p) :
    writeSeq arr (ws₁ ++ (p, v) :: ws₂) p = v := by
  rw [writeSeq_append, writeSeq_cons, writeSeq_not_mem _ _ _ h]
  simp

theorem writeSeq_unique_key {F : Type} :
    ∀ (ws : List ((Nat × Nat) × F)) (arr : Nat × Nat → F),
      (ws.map Prod.fst).Nodup →
      ∀ (i : ℕ) (w : (Nat × Nat) × F), ws[i]? = some w →
        writeSeq arr ws w.1 = w.2 := by
  intro ws
  induction ws with
  | nil => intro arr _ i w hw; simp at hw
  | cons x rest ih =>
    intro arr hnd i w hw
    rw [List.map_cons, List.nodup_cons] at hnd
    obtain ⟨hx, hrest⟩ := hnd
    cases i with
    | zero =>
      have hwx : x = w := by simpa using hw
      subst hwx
      rw [writeSeq_cons,
          writeSeq_not_mem _ _ _ (fun v hv hc => hx (by
            rw [← hc]; exact List.mem_map.mpr ⟨v, hv, rfl⟩))]
      simp
    | succ i' =>
      have hw' : rest[i']? = some w := by simpa using hw
      rw [writeSeq_cons]
      exact ih _ hrest i' w hw'

/-- C6: every assembly fill array is built by uniformly filling the 17x17
array with the fuel-pin-stack universe and then overwriting exactly the 25
listed non-fuel (y,x) positions, the center (8,8) receiving the chosen
center universe; unlisted positions keep the uniform fill, and repeated
override indices resolve last-write-wins. -/
theorem C6_assembly_fill (F : Type) (inst : Inhabited F) :
    nonfuel_pos.length = 25 ∧
    nonfuel_pos.Nodup ∧
    nonfuel_pos.getD 12 (0, 0) = (8, 8) ∧
    (∀ (bulk : F) (vals : List F) (p : Nat × Nat), p ∉ nonfuel_pos →
      assembly_fill_array bulk vals p = bulk) ∧
    (∀ (bulk : F) (vals : List F), vals.length = 25 →
      ∀ i, i < 25 →
        assembly_fill_array bulk vals (nonfuel_pos.getD i (0, 0)) =
          vals.getD i default) ∧
    (∀ (bulk tube cent : F),
      assembly_fill_array bulk (variant_vals tube cent) (8, 8) = cent) ∧
    (∀ (arr : Nat × Nat → F) (ws₁ ws₂ : List ((Nat × Nat) × F))
       (p : Nat × Nat) (v : F), (∀ w ∈ ws₂, w.1 ≠ p) →
      writeSeq arr (ws₁ ++ (p, v) :: ws₂) p = v) := by
  have hnp : nonfuel_pos.length = 25 := by decide
  have h4 : ∀ (bulk : F) (vals : List F) (p : Nat × Nat),
      p ∉ nonfuel_pos → assembly_fill_array bulk vals p = bulk := by
    intro bulk vals p hp
    refine writeSeq_not_mem _ _ _ (fun w hw hc => hp ?_)
    obtain ⟨a, b⟩ := w
    exact hc ▸ (List.of_mem_zip hw).1
  have h5 : ∀ (bulk : F) (vals : List F), vals.length = 25 →
      ∀ i, i < 25 →
        assembly_fill_array bulk vals (nonfuel_pos.getD i (0, 0)) =
          vals.getD i default := by
    intro bulk vals hv i hi
    have hle : nonfuel_pos.length ≤ vals.length := by omega
    have hmf : (nonfuel_pos.zip vals).map Prod.fst = nonfuel_pos :=
      List.map_fst_zip _ _ hle
    have hzl : i < (nonfuel_pos.zip vals).length := by
      rw [List.length_zip]
      omega
    have hip : i < nonfuel_pos.length := by omega
    have hiv : i < vals.length := by omega
    have hz : (nonfuel_pos.zip vals)[i]? =
        some (nonfuel_pos[i], vals[i]) := by
      rw [List.getElem?_eq_getElem hzl, List.getElem_zip]
    have := writeSeq_unique_key (nonfuel_pos.zip vals)
      (fun _ => bulk) (by rw [hmf]; decide) i _ hz
    simp only at this
    rw [assembly_fill_array,
        show nonfuel_pos.getD i (0, 0) = nonfuel_pos[i] by
          simp [List.getD_eq_getElem?_getD, List.getElem?_eq_getElem hip],
        show vals.getD i default = vals[i] by
          simp [List.getD_eq_getElem?_getD, List.getElem?_eq_getElem hiv]]
    exact this
  have h6 : ∀ (bulk tube cent : F),
      assembly_fill_array bulk (variant_vals tube cent) (8, 8) = cent := by
    intro bulk tube cent
    have hlenv : (variant_vals tube cent).length = 25 := by
      simp [variant_vals]
    have h12 := h5 bulk (variant_vals tube cent) hlenv 12 (by omega)
    rw [show nonfuel_pos.getD 12 (0, 0) = (8, 8) by decide] at h12
    rw [h12]
    show (List.replicate 12 tube ++ cent ::
      List.replicate 12 tube).getD 12 default = cent
    rw [List.getD_append_right _ _ _ _ (by simp),
        List.length_replicate]
    simp
  exact ⟨hnp, by decide, by decide, h4, h5, h6,
         fun arr ws₁ ws₂ p v h => writeSeq_last_wins arr ws₁ ws₂ p v h⟩

/-- Witness for C6: with bulk fill F, tube fill G and center fill C, a
non-override position keeps F and the center holds C. -/
theorem C6_witness :
    assembly_fill_array "F" (variant_vals "G" "C") (0, 0) = "F" ∧
    assembly_fill_array "F" (variant_vals "G" "C") (8, 8) = "C" := by
  exact ⟨(C6_assembly_fill Mat ⟨""⟩).2.2.2.1 "F" (variant_vals "G" "C")
           (0, 0) (by decide),
         (C6_assembly_fill Mat ⟨""⟩).2.2.2.2.2.1 "F" "G" "C"⟩

/-! ## C7 -/

/-- C7: every rotation-reuse universe consists of exactly one cell whose
fill is the source universe itself (the argument, shared by reference,
nothing rebuilt) with the rotation attached; and every rotation triple
used by reflector_universes has x- and y-components in {0, 180} and a
z-component that is a multiple of 90 degrees. -/
theorem C7_rotate_universe (F : Type) :
    (∀ (u : F) (r : ℤ × ℤ × ℤ) (n : String),
      (rotate_universe u r n).cells =
        [{ name := "reflector " ++ n, fill := u, region := none
           rotation := some r }]) ∧
    (∀ (u : F) (r : ℤ × ℤ × ℤ) (n : String),
      (rotate_universe u r n).cells.map (fun c => c.fill) = [u]) ∧
    (∀ c ∈ reflector_rotation_calls,
      (c.2.1.1 = 0 ∨ c.2.1.1 = 180) ∧
      (c.2.1.2.1 = 0 ∨ c.2.1.2.1 = 180) ∧
      c.2.1.2.2 % 90 = 0) := by
  refine ⟨fun u r n => rfl, fun u r n => rfl, ?_⟩
  decide

/-- Witness for C7: the NE reflector call rotates NW by (0, 0, -90). -/
theorem C7_witness :
    ((0 : ℤ) = 0 ∨ (0 : ℤ) = 180) ∧ ((0 : ℤ) = 0 ∨ (0 : ℤ) = 180) ∧
      (-90 : ℤ) % 90 = 0 := by
  exact (C7_rotate_universe Mat).2.2 ("NW", (0, 0, -90), "NE") (by decide)

/-! ## C8 -/

/-- C8: the claim that a failed transport run is caught at the evaluation
boundary and turned into a sentinel fitness is refuted for the SMR and
pin-cell drivers: their FIT bodies wrap no handler around the solver
call, so the failure propagates out of FIT into the optimizer. -/
theorem C8_counterexample :
    FIT_smr (.failed "no surviving particles") =
      .error "no surviving particles" ∧
    FIT_pin_cell (.failed "no surviving particles") =
      .error "no surviving particles" ∧
    ¬ ∃ v : ℚ, FIT_smr (.failed "no surviving particles") = .ok v := by
  refine ⟨rfl, rfl, ?_⟩
  rintro ⟨v, hv⟩
  simp [FIT_smr] at hv

/-- C8 amended: only the assembly optimizer's FIT catches solver failure
(returning the sentinel 0.0); the SMR and pin-cell FIT functions
propagate the failure to the optimizer, returning the usual
|k - target| fitness only on success. -/
theorem C8_amended :
    (∀ m, FIT_smr (.failed m) = .error m) ∧
    (∀ k st, FIT_smr (.ok k st) = .ok |k - 1|) ∧
    (∀ m, FIT_pin_cell (.failed m) = .error m) ∧
    (∀ k st, FIT_pin_cell (.ok k st) = .ok |k - 11/10|) ∧
    (∀ uf m, FIT_assembly uf (.failed m) = .ok 0) ∧
    (∀ uf k st, FIT_assembly uf (.ok k st) =
      .ok (np_round5 (if 61 < uf then k + (-100000) else k))) := by
  exact ⟨fun m => rfl, fun k st => rfl, fun m => rfl, fun k st => rfl,
         fun uf m => rfl, fun uf k st => rfl⟩

/-! ## C9 -/

/-- C9: the claim that geometry construction mutates no state shared
across calls is refuted: the module-global surfs registry does not
contain the key "bankA top" after import, and a single pin_universes call
writes it (and the other seven bank planes) into that shared registry. -/
theorem C9_counterexample :
    initial_surfs 0 0 0 0 "bankA top" = none ∧
    pin_universes_surfs ⟨0, 0, 0, 0⟩ (initial_surfs 0 0 0 0) "bankA top" =
      some (.surf (.zplane (bank_top_z - 0))) ∧
    pin_universes_surfs ⟨0, 0, 0, 0⟩ (initial_surfs 0 0 0 0) "bankA top" ≠
      initial_surfs 0 0 0 0 "bankA top" := by
  have h1 : initial_surfs 0 0 0 0 "bankA top" = none := rfl
  have h2 : pin_universes_surfs ⟨0, 0, 0, 0⟩ (initial_surfs 0 0 0 0)
      "bankA top" = some (.surf (.zplane (bank_top_z - 0))) := rfl
  exact ⟨h1, h2, by rw [h1, h2]; simp⟩

/-- C9 amended: geometry construction is deterministic and does no I/O,
but it does mutate shared state: every pin_universes call overwrites the
eight control-rod bank plane entries of the module-global surfs registry.
The mutation is confined to those eight keys (all other registry entries
are untouched), and the values written depend only on the CRs argument,
not on the prior registry state - which is why equal arguments still
yield structurally identical geometry. -/
theorem C9_amended (s₁ s₂ : Surfs) (CRs : CRBanks) :
    (∀ k, k ∉ bank_keys → pin_universes_surfs CRs s₁ k = s₁ k) ∧
    (∀ k, k ∈ bank_keys →
      pin_universes_surfs CRs s₁ k = pin_universes_surfs CRs s₂ k) := by
  constructor
  · intro k hk
    simp only [bank_keys, List.mem_cons, List.not_mem_nil, or_false] at hk
    push_neg at hk
    obtain ⟨h1, h2, h3, h4, h5, h6, h7, h8⟩ := hk
    simp [pin_universes_surfs, Surfs.set, h1, h2, h3, h4, h5, h6, h7, h8]
  · intro k hk
    simp only [bank_keys, List.mem_cons, List.not_mem_nil, or_false] at hk
    rcases hk with rfl | rfl | rfl | rfl | rfl | rfl | rfl | rfl <;> rfl

/-- Witness for C9 amended: a static key is untouched and a bank key gets
the same value whatever the registry held before. -/
theorem C9_amended_witness :
    pin_universes_surfs ⟨1, 2, 3, 4⟩ (initial_surfs 0 0 0 0) "pellet OR" =
      initial_surfs 0 0 0 0 "pellet OR" ∧
    pin_universes_surfs ⟨1, 2, 3, 4⟩ (initial_surfs 0 0 0 0) "bankA top" =
      pin_universes_surfs ⟨1, 2, 3, 4⟩ (fun _ => none) "bankA top" := by
  exact ⟨(C9_amended (initial_surfs 0 0 0 0) (fun _ => none) ⟨1, 2, 3, 4⟩).1
           "pellet OR" (by decide),
         (C9_amended (initial_surfs 0 0 0 0) (fun _ => none) ⟨1, 2, 3, 4⟩).2
           "bankA top" (by decide)⟩

/-! ## C10 -/

/-- C10: every (successful) FIT call leaves the process in the
per-evaluation scratch subdirectory - the previous working directory is
never restored - and that subdirectory has been deleted by the time FIT
returns, so the process's working directory no longer exists. -/
theorem C10_FIT_cwd (curpath : String) (randnum : ℕ) (s : FsState) :
    (FIT_fs curpath randnum s).cwd = subfold_path curpath randnum ∧
    (FIT_fs curpath randnum s).cwd ∉ (FIT_fs curpath randnum s).dirs ∧
    (FIT_fs curpath randnum s).cwd ≠ curpath := by
  refine ⟨rfl, ?_, ?_⟩
  · intro hmem
    have hdec := List.of_mem_filter hmem
    simp at hdec
    exact hdec rfl
  · intro h
    have hlen : (subfold_path curpath randnum).length = curpath.length :=
      congrArg String.length h
    rw [subfold_path, String.length_append, String.length_append] at hlen
    have h9 : ("/subfold_" : String).length = 9 := rfl
    rw [h9] at hlen
    omega

end OpenNeoMC
